import Mathlib

/-!
Verification of the Arduino-Triage auscultation placement tracker.

The development shallowly embeds the tracking core of the repository:

* `tracker_server.py`  — Flask streaming server (namespace `TrackerServer`);
* `hand_lung_tracker.py` — standalone lung/cardiac tracker (namespace `HandLung`);
* `heart_tracker.py`   — standalone cardiac tracker (namespace `HeartTracker`).

Modelling conventions:

* Pixel coordinates are integers (`Int`), exactly as produced by the Python
  `px` helper, which truncates `lm.x * w` to `int`.  A pose is represented by
  the four anchor points that the anatomy code reads (`get_body_anchors`):
  left/right shoulder and left/right hip, in pixels.
* Python `int(a / b)` is truncation toward zero of an exact quotient
  (`Int.tdiv`), and `a // b` is floor division (`Int.fdiv`).
* Fractional scale factors such as `int(shoulder_w * 0.11)` are idealised as
  exact rational arithmetic, `Int.tdiv (shoulder_w * 11) 100`.  The float
  literals of the source are read as the exact decimal fractions they print
  as; no claim in this development depends on sub-pixel placement.
* The comparison `math.hypot(dx, dy) < r` on integer pixels with an integer
  radius is embedded as the exact equivalent integer test
  `dx ^ 2 + dy ^ 2 < r ^ 2` (48 and 50 are exactly representable doubles, and
  rounding a value that lies on the far side of such a representable bound
  cannot carry it across the bound, so the float comparison agrees with the
  exact one on integer inputs).
* A Python `dict` keyed by strings is an insertion-ordered association list
  without duplicate keys (`VMap`): lookup reads the first matching entry,
  assignment updates a present key in place and appends a missing key.
-/

/-- A 2-D pixel point, as produced by the Python `px` helper. -/
abbrev Pt : Type := Int × Int

/-- Python `int(a / b)`: exact quotient truncated toward zero. -/
def pyTrunc (a b : Int) : Int := Int.tdiv a b

/-- Python `a // b`: floor division. -/
def pyFloorDiv (a b : Int) : Int := Int.fdiv a b

/-- Python `int(a * (num / den))` with the float fraction idealised as the
exact rational `num / den`: multiply, then truncate toward zero. -/
def mulFrac (a num den : Int) : Int := Int.tdiv (a * num) den

/-- The `visited` dictionary of every variant: an insertion-ordered
association list from target name to flag. -/
abbrev VMap : Type := List (String × Bool)

namespace VMap

/-- Python `vm.get(k)` and `k in vm`: first entry whose key matches. -/
def lookup (vm : VMap) (k : String) : Option Bool := List.lookup k vm

/-- The key list of the dictionary, in insertion order. -/
def keys (vm : VMap) : List String := vm.map Prod.fst

/-- Python dict assignment `vm[k] = b`: update the first matching entry in
place, or append a fresh entry when the key is absent. -/
def setKey : VMap → String → Bool → VMap
  | [], k, b => [(k, b)]
  | (k₀, b₀) :: rest, k, b =>
      if k₀ = k then (k₀, b) :: rest else (k₀, b₀) :: setKey rest k b

/-- Python dict comprehension keeping only the keys that are members of
`names` (the `if k in current_names` filter). -/
def filterKeys (names : List String) (vm : VMap) : VMap :=
  vm.filter fun kv => decide (kv.1 ∈ names)

end VMap

/-!  The per-frame alignment bookkeeping shared (verbatim, up to the radius
constant and the record type of a target) by all three variants.  A target is
consumed by this code only through its `name` and `pos` fields, so the core is
stated over name/position pairs. -/

namespace Tracking

/-- One target as consumed by the alignment loop: its name and its pixel
position. -/
abbrev NamedPt : Type := String × Pt

/-- The comparison `dist(hp, pos) < radius` of the source, in the exact
squared-integer form (see the header note on `math.hypot`). -/
def distLtRadius (hp pos : Pt) (radius : Int) : Bool :=
  decide ((hp.1 - pos.1) ^ 2 + (hp.2 - pos.2) ^ 2 < radius ^ 2)

/-- The inner loop `for hp in hand_positions: if dist(hp, pos) < radius`:
the aligned flag is set exactly when some hand centre passes the test. -/
def alignedFlag (radius : Int) (hands : List Pt) (pos : Pt) : Bool :=
  hands.any fun hp => distLtRadius hp pos radius

/-- The loop `for t in targets: if name not in visited: visited[name] = False`,
inserting a `false` entry for every target name not yet present. -/
def addMissing : List String → VMap → VMap
  | [], vm => vm
  | n :: ns, vm =>
      addMissing ns (if (VMap.lookup vm n).isSome then vm else vm ++ [(n, false)])

/-- The visited resync of `tracker_server.py` (lines 459-463) and
`hand_lung_tracker.py` (lines 458-463): drop the keys that are not current
target names, then insert the missing names as `false`. -/
def resyncVisited (names : List String) (vm : VMap) : VMap :=
  addMissing names (VMap.filterKeys names vm)

/-- The alignment loop (`tracker_server.py` lines 481-487 and its twins):
for each target in order, when some hand centre is within the radius the
entry for the target name is set to `true`. -/
def markAligned (radius : Int) (hands : List Pt) : List NamedPt → VMap → VMap
  | [], vm => vm
  | t :: ts, vm =>
      markAligned radius hands ts
        (if alignedFlag radius hands t.2 then VMap.setKey vm t.1 true else vm)

/-- The complete per-frame visited update of the resyncing variants:
resync the key set with the current targets, then mark the aligned ones. -/
def processTargets (radius : Int) (targets : List NamedPt) (hands : List Pt)
    (vm : VMap) : VMap :=
  markAligned radius hands targets (resyncVisited (targets.map Prod.fst) vm)

end Tracking

/-!  tracker_server.py — the Flask streaming server. -/

namespace TrackerServer

/-- The alignment radius of the server (`ALIGNMENT_RADIUS = 48`). -/
def ALIGNMENT_RADIUS : Int := 48

/-- One anatomical target of the server: dictionary with name, pos, order. -/
structure Target where
  name : String
  pos : Pt
  order : Nat
  deriving DecidableEq, Repr

/-- The four body anchors read by `get_body_anchors`: left and right shoulder,
left and right hip, in pixel coordinates. -/
structure Anchors where
  ls : Pt
  rs : Pt
  lh : Pt
  rh : Pt
  deriving DecidableEq, Repr

/-- Embedding of `compute_cardiac_points` (tracker_server.py, lines 131-152). -/
def compute_cardiac_points (a : Anchors) : List Target :=
  let torso_h := pyTrunc ((a.lh.2 - a.ls.2) + (a.rh.2 - a.rs.2)) 2
  let mid_x := pyFloorDiv (a.ls.1 + a.rs.1) 2
  let top_y := pyFloorDiv (a.ls.2 + a.rs.2) 2
  let shoulder_w := |a.rs.1 - a.ls.1|
  let stb := mulFrac shoulder_w 11 100
  let mcl := mulFrac shoulder_w 32 100
  let ics2 := mulFrac torso_h 12 100
  let ics3 := mulFrac torso_h 21 100
  let ics4 := mulFrac torso_h 30 100
  let ics5 := mulFrac torso_h 39 100
  [ { name := "Aortic", pos := (mid_x - stb, top_y + ics2), order := 1 },
    { name := "Pulmonic", pos := (mid_x + stb, top_y + ics2), order := 2 },
    { name := "Erb\x27s Pt", pos := (mid_x + stb, top_y + ics3), order := 3 },
    { name := "Tricuspid", pos := (mid_x + stb, top_y + ics4), order := 4 },
    { name := "Mitral", pos := (mid_x + mcl, top_y + ics5), order := 5 } ]

/-- Embedding of `compute_lung_points` (tracker_server.py, lines 155-171). -/
def compute_lung_points (a : Anchors) : List Target :=
  let torso_h := pyTrunc ((a.lh.2 - a.ls.2) + (a.rh.2 - a.rs.2)) 2
  let mid_x := pyFloorDiv (a.ls.1 + a.rs.1) 2
  let top_y := pyFloorDiv (a.ls.2 + a.rs.2) 2
  let mcl := mulFrac (|a.rs.1 - a.ls.1|) 32 100
  [ { name := "R Apex", pos := (mid_x - mcl, top_y + mulFrac torso_h 3 100), order := 1 },
    { name := "L Apex", pos := (mid_x + mcl, top_y + mulFrac torso_h 3 100), order := 2 },
    { name := "R Upper", pos := (mid_x - mcl, top_y + mulFrac torso_h 14 100), order := 3 },
    { name := "L Upper", pos := (mid_x + mcl, top_y + mulFrac torso_h 14 100), order := 4 },
    { name := "R Middle", pos := (mid_x - mcl, top_y + mulFrac torso_h 32 100), order := 5 },
    { name := "R Lower", pos := (mid_x - mcl, top_y + mulFrac torso_h 50 100), order := 6 },
    { name := "L Lower", pos := (mid_x + mcl, top_y + mulFrac torso_h 50 100), order := 7 } ]

/-- The fixed cardiac target names, in target order. -/
def cardiacNames : List String :=
  ["Aortic", "Pulmonic", "Erb\x27s Pt", "Tricuspid", "Mitral"]

/-- The fixed lung target names, in target order. -/
def lungNames : List String :=
  ["R Apex", "L Apex", "R Upper", "L Upper", "R Middle", "R Lower", "L Lower"]

/-- The mode dispatch of the processing loop (lines 452-455):
`heart` selects the cardiac points, anything else the lung points. -/
def modeTargets (mode : String) (a : Anchors) : List Target :=
  if mode = "heart" then compute_cardiac_points a else compute_lung_points a

/-- The target-name set of the active mode. -/
def modeNames (mode : String) : List String :=
  if mode = "heart" then cardiacNames else lungNames

/-- Targets as consumed by the alignment loop: name/position pairs. -/
def namedPts (ts : List Target) : List Tracking.NamedPt :=
  ts.map fun t => (t.name, t.pos)

/-- The shared `TrackerState` of the server restricted to the tracking data:
active mode, visited dictionary, pending-reset flag.  (The JPEG slot and the
frame event are the transport layer, outside the tracked state.) -/
structure TrackerState where
  mode : String
  visited : VMap
  reset_requested : Bool
  deriving DecidableEq, Repr

/-- The `TrackerState.__init__` values: mode `heart`, empty visited map, no
pending reset. -/
def initialState : TrackerState :=
  { mode := "heart", visited := [], reset_requested := false }

/-- The detector outcome a single loop iteration observes:
`initializing` is `pose_res is None` (no detector result yet), `idle` is a
pose result with no pose landmarks, and `pose` carries the body anchors of
the first pose plus the palm-centre pixel of each detected hand. -/
inductive Detection where
  | initializing : Detection
  | idle : Detection
  | pose : Anchors → List Pt → Detection
  deriving DecidableEq, Repr

/-- The overlay kind of the frame published by one iteration. -/
inductive Overlay where
  | initializingPrompt : Overlay
  | stepIntoFramePrompt : Overlay
  | tracking : Overlay
  deriving DecidableEq, Repr

/-- Lines 439-444: at the top of the iteration, under the lock, a pending
reset clears the visited dictionary and consumes the flag. -/
def applyPendingReset (s : TrackerState) : TrackerState :=
  if s.reset_requested then { s with visited := [], reset_requested := false } else s

/-- One iteration of `processing_loop` on the tracked state.  The
`initializing` branch (lines 428-437) publishes a frame without touching the
state; the `idle` and `pose` branches first apply a pending reset
(lines 439-444); the `pose` branch then recomputes targets for the active
mode and runs the resync and alignment update (lines 448-500). -/
def frameStep (s : TrackerState) (d : Detection) : TrackerState :=
  match d with
  | .initializing => s
  | .idle => applyPendingReset s
  | .pose a hands =>
      let s₁ := applyPendingReset s
      let targets := modeTargets s₁.mode a
      { s₁ with
        visited :=
          Tracking.processTargets ALIGNMENT_RADIUS (namedPts targets) hands s₁.visited }

/-- The overlay of the frame each branch encodes and publishes: every
iteration stores a JPEG, whatever the detection outcome. -/
def frameOverlay (d : Detection) : Overlay :=
  match d with
  | .initializing => .initializingPrompt
  | .idle => .stepIntoFramePrompt
  | .pose _ _ => .tracking

/-- The mode sanitisation of the `/feed` route (lines 563-565): a value other
than `heart` or `lung` falls back to `heart`.  (The argument stands for the
already-lowercased query parameter.) -/
def sanitizeMode (m : String) : String :=
  if m = "heart" ∨ m = "lung" then m else ("heart")

/-- The `/feed` route state change (lines 566-569): under the lock, when the
requested mode differs from the active one, switch and clear visited. -/
def feedSetMode (s : TrackerState) (m : String) : TrackerState :=
  let mode := sanitizeMode m
  if s.mode ≠ mode then { s with mode := mode, visited := [] } else s

/-- The `/reset` route (lines 597-601): set the pending-reset flag. -/
def reset_tracker (s : TrackerState) : TrackerState :=
  { s with reset_requested := true }

/-- The JSON document of the `/status` route. -/
structure Status where
  mode : String
  visited : VMap
  total : Nat
  done : Nat
  progress : ℚ
  allDone : Bool
  deriving DecidableEq, Repr

/-- Python `round(x, 1)`, idealised over the exact rationals: scale by ten,
round to the nearest integer, scale back.  (No reachable progress value lies
on a rounding tie, so the tie-breaking rule is immaterial.) -/
def round1 (q : ℚ) : ℚ := (round (q * 10) : ℤ) / 10

/-- The `/status` route (lines 577-594): snapshot visited and mode under the
lock, then report size, done count, rounded progress percentage, and the
all-done flag `total > 0 and done == total`. -/
def tracker_status (s : TrackerState) : Status :=
  let visited := s.visited
  let total : Nat := if visited.isEmpty then 0 else visited.length
  let done : Nat := (visited.filter fun kv => kv.2).length
  let progress : ℚ := if 0 < total then (done : ℚ) / (total : ℚ) * 100 else 0
  { mode := s.mode
    visited := visited
    total := total
    done := done
    progress := round1 progress
    allDone := decide (0 < total) && decide (done = total) }

end TrackerServer

/-!  hand_lung_tracker.py — standalone lung/cardiac tracker. -/

namespace HandLung

/-- The alignment radius of this variant (`ALIGNMENT_RADIUS = 50`). -/
def ALIGNMENT_RADIUS : Int := 50

/-- One target of this variant: dictionary with name, pos, side tag. -/
structure Target where
  name : String
  pos : Pt
  side : String
  deriving DecidableEq, Repr

/-- Embedding of `compute_lung_points` (hand_lung_tracker.py, lines 137-162).
The source also computes an `stb` offset (12 percent of shoulder width) that
no lung point uses; it is omitted here as dead local state. -/
def compute_lung_points (a : TrackerServer.Anchors) : List Target :=
  let torso_h := pyTrunc ((a.lh.2 - a.ls.2) + (a.rh.2 - a.rs.2)) 2
  let mid_x := pyFloorDiv (a.ls.1 + a.rs.1) 2
  let top_y := pyFloorDiv (a.ls.2 + a.rs.2) 2
  let mcl := mulFrac (|a.rs.1 - a.ls.1|) 32 100
  [ { name := "R Apex", pos := (mid_x - mcl, top_y + mulFrac torso_h 3 100), side := "R" },
    { name := "L Apex", pos := (mid_x + mcl, top_y + mulFrac torso_h 3 100), side := "L" },
    { name := "R Upper", pos := (mid_x - mcl, top_y + mulFrac torso_h 14 100), side := "R" },
    { name := "L Upper", pos := (mid_x + mcl, top_y + mulFrac torso_h 14 100), side := "L" },
    { name := "R Middle", pos := (mid_x - mcl, top_y + mulFrac torso_h 32 100), side := "R" },
    { name := "R Lower", pos := (mid_x - mcl, top_y + mulFrac torso_h 50 100), side := "R" },
    { name := "L Lower", pos := (mid_x + mcl, top_y + mulFrac torso_h 50 100), side := "L" } ]

/-- Embedding of `compute_cardiac_points` (hand_lung_tracker.py, lines
165-182). -/
def compute_cardiac_points (a : TrackerServer.Anchors) : List Target :=
  let torso_h := pyTrunc ((a.lh.2 - a.ls.2) + (a.rh.2 - a.rs.2)) 2
  let mid_x := pyFloorDiv (a.ls.1 + a.rs.1) 2
  let top_y := pyFloorDiv (a.ls.2 + a.rs.2) 2
  let mcl := mulFrac (|a.rs.1 - a.ls.1|) 32 100
  let stb := mulFrac (|a.rs.1 - a.ls.1|) 12 100
  [ { name := "Aortic", pos := (mid_x - stb, top_y + mulFrac torso_h 12 100), side := "R" },
    { name := "Pulmonic", pos := (mid_x + stb, top_y + mulFrac torso_h 12 100), side := "L" },
    { name := "Erb\x27s Pt", pos := (mid_x + stb, top_y + mulFrac torso_h 22 100), side := "L" },
    { name := "Tricuspid", pos := (mid_x + stb, top_y + mulFrac torso_h 32 100), side := "L" },
    { name := "Mitral", pos := (mid_x + mcl, top_y + mulFrac torso_h 40 100), side := "L" } ]

/-- The mode dispatch of the main loop (lines 451-454): `lung` selects the
lung points, anything else the cardiac points. -/
def modeTargets (mode : String) (a : TrackerServer.Anchors) : List Target :=
  if mode = "lung" then compute_lung_points a else compute_cardiac_points a

/-- The target-name set of the active mode of this variant. -/
def modeNames (mode : String) : List String :=
  if mode = "lung" then TrackerServer.lungNames else TrackerServer.cardiacNames

/-- Targets as consumed by the alignment loop: name/position pairs. -/
def namedPts (ts : List Target) : List Tracking.NamedPt :=
  ts.map fun t => (t.name, t.pos)

/-- The per-frame visited update of the main loop on a frame with a detected
pose (lines 458-481): the same resync plus alignment marking as the server,
with this variant radius of 50. -/
def processFrameVisited (mode : String) (a : TrackerServer.Anchors)
    (hands : List Pt) (vm : VMap) : VMap :=
  Tracking.processTargets ALIGNMENT_RADIUS (namedPts (modeTargets mode a)) hands vm

/-- The `m` key handler (lines 527-529): toggle between the two modes. -/
def toggleMode (mode : String) : String :=
  if mode = "lung" then ("cardiac") else ("lung")

/-- The full effect of pressing `m` (lines 527-529): switch to the toggled
mode and clear the visited dictionary. -/
def pressToggleMode (mode : String) (_visited : VMap) : String × VMap :=
  (toggleMode mode, ([] : VMap))

/-- The `r` key handler (line 526): keep every key, set every flag false. -/
def pressReset (visited : VMap) : VMap :=
  visited.map fun kv => (kv.1, false)

end HandLung

/-!  heart_tracker.py — standalone cardiac tracker. -/

namespace HeartTracker

/-- The alignment radius of this variant (`ALIGNMENT_RADIUS = 48`). -/
def ALIGNMENT_RADIUS : Int := 48

/-- One cardiac target of this variant: name, pos, description, order. -/
structure Target where
  name : String
  pos : Pt
  desc : String
  order : Nat
  deriving DecidableEq, Repr

/-- Embedding of `compute_cardiac_points` (heart_tracker.py, lines 109-177). -/
def compute_cardiac_points (a : TrackerServer.Anchors) : List Target :=
  let torso_h := pyTrunc ((a.lh.2 - a.ls.2) + (a.rh.2 - a.rs.2)) 2
  let mid_x := pyFloorDiv (a.ls.1 + a.rs.1) 2
  let top_y := pyFloorDiv (a.ls.2 + a.rs.2) 2
  let shoulder_w := |a.rs.1 - a.ls.1|
  let stb := mulFrac shoulder_w 11 100
  let mcl := mulFrac shoulder_w 32 100
  let ics2 := mulFrac torso_h 12 100
  let ics3 := mulFrac torso_h 21 100
  let ics4 := mulFrac torso_h 30 100
  let ics5 := mulFrac torso_h 39 100
  [ { name := "Aortic", pos := (mid_x - stb, top_y + ics2),
      desc := "2nd right intercostal", order := 1 },
    { name := "Pulmonic", pos := (mid_x + stb, top_y + ics2),
      desc := "2nd left intercostal", order := 2 },
    { name := "Erb\x27s Pt", pos := (mid_x + stb, top_y + ics3),
      desc := "3rd left intercostal", order := 3 },
    { name := "Tricuspid", pos := (mid_x + stb, top_y + ics4),
      desc := "4th left intercostal", order := 4 },
    { name := "Mitral", pos := (mid_x + mcl, top_y + ics5),
      desc := "5th ICS, midclavicular", order := 5 } ]

/-- Targets as consumed by the alignment loop: name/position pairs. -/
def namedPts (ts : List Target) : List Tracking.NamedPt :=
  ts.map fun t => (t.name, t.pos)

/-- The visited sync of the main loop (lines 487-490): this variant only
inserts missing names as `false`; it never drops keys. -/
def ensureVisited (ts : List Target) (vm : VMap) : VMap :=
  Tracking.addMissing (ts.map Target.name) vm

/-- The per-frame visited update on a frame with a detected pose
(lines 479-517): ensure all five names are present, then mark aligned ones. -/
def processFrameVisited (a : TrackerServer.Anchors) (hands : List Pt)
    (vm : VMap) : VMap :=
  let targets := compute_cardiac_points a
  Tracking.markAligned ALIGNMENT_RADIUS hands (namedPts targets) (ensureVisited targets vm)

end HeartTracker

/-!  Library lemmas about the dictionary operations and the shared
alignment core, used by the claim theorems below. -/

namespace VMap

theorem lookup_nil (k : String) : lookup [] k = none := rfl

theorem lookup_cons (k₀ : String) (b₀ : Bool) (rest : VMap) (k : String) :
    lookup ((k₀, b₀) :: rest) k = if k₀ = k then some b₀ else lookup rest k := by
  by_cases h : k₀ = k
  · subst h
    simp [lookup, List.lookup_cons]
  · rw [if_neg h]
    simp [lookup, List.lookup_cons, beq_false_of_ne (fun hh => h hh.symm)]

theorem lookup_isSome_iff (vm : VMap) (k : String) :
    (lookup vm k).isSome = true ↔ k ∈ keys vm := by
  induction vm with
  | nil => simp [lookup_nil, keys]
  | cons kv rest ih =>
      obtain ⟨k₀, b₀⟩ := kv
      rw [lookup_cons]
      by_cases h : k₀ = k
      · subst h
        simp [keys]
      · rw [if_neg h]
        simp only [keys, List.map_cons, List.mem_cons]
        constructor
        · intro hs
          exact Or.inr (ih.mp hs)
        · rintro (hs | hs)
          · exact absurd hs.symm h
          · exact ih.mpr hs

theorem lookup_setKey_self (vm : VMap) (k : String) (b : Bool) :
    lookup (setKey vm k b) k = some b := by
  induction vm with
  | nil => simp [setKey, lookup_cons]
  | cons kv rest ih =>
      obtain ⟨k₀, b₀⟩ := kv
      by_cases h : k₀ = k
      · simp [setKey, h, lookup_cons]
      · simp [setKey, h, lookup_cons, ih]

theorem lookup_setKey_ne (vm : VMap) (k k₁ : String) (b : Bool) (h : k₁ ≠ k) :
    lookup (setKey vm k b) k₁ = lookup vm k₁ := by
  induction vm with
  | nil =>
      simp only [setKey]
      rw [lookup_cons, if_neg (fun hh => h hh.symm)]
  | cons kv rest ih =>
      obtain ⟨k₀, b₀⟩ := kv
      by_cases h₀ : k₀ = k
      · subst h₀
        have hne : k₀ ≠ k₁ := fun hh => h hh.symm
        have hset : setKey ((k₀, b₀) :: rest) k₀ b = (k₀, b) :: rest := by
          simp [setKey]
        rw [hset, lookup_cons, lookup_cons, if_neg hne, if_neg hne]
      · simp only [setKey, if_neg h₀]
        rw [lookup_cons, lookup_cons, ih]

theorem keys_setKey_of_mem (vm : VMap) (k : String) (b : Bool)
    (h : k ∈ keys vm) : keys (setKey vm k b) = keys vm := by
  induction vm with
  | nil => simp [keys] at h
  | cons kv rest ih =>
      obtain ⟨k₀, b₀⟩ := kv
      by_cases hk : k₀ = k
      · simp [setKey, hk, keys]
      · have hmem : k ∈ keys rest := by
          simp only [keys, List.map_cons, List.mem_cons] at h
          rcases h with h | h
          · exact absurd h.symm hk
          · exact h
        simp only [setKey, if_neg hk, keys, List.map_cons]
        exact congrArg (fun l => k₀ :: l) (ih hmem)

theorem lookup_append_of_isSome (vm ws : VMap) (k : String)
    (h : (lookup vm k).isSome = true) :
    lookup (vm ++ ws) k = lookup vm k := by
  induction vm with
  | nil => rw [lookup_nil] at h; simp at h
  | cons kv rest ih =>
      obtain ⟨k₀, b₀⟩ := kv
      rw [List.cons_append, lookup_cons, lookup_cons]
      by_cases hk : k₀ = k
      · simp [hk]
      · rw [if_neg hk, if_neg hk]
        rw [lookup_cons, if_neg hk] at h
        exact ih h

theorem lookup_filterKeys_of_mem (names : List String) (vm : VMap) (n : String)
    (hn : n ∈ names) :
    lookup (filterKeys names vm) n = lookup vm n := by
  induction vm with
  | nil => rfl
  | cons kv rest ih =>
      obtain ⟨k₀, b₀⟩ := kv
      simp only [filterKeys, List.filter_cons] at ih ⊢
      by_cases hk₀ : k₀ ∈ names
      · rw [if_pos (by simpa using hk₀)]
        rw [lookup_cons, lookup_cons]
        by_cases he : k₀ = n
        · simp [he]
        · rw [if_neg he, if_neg he]
          exact ih
      · rw [if_neg (by simpa using hk₀)]
        have he : k₀ ≠ n := fun hh => hk₀ (hh ▸ hn)
        rw [lookup_cons, if_neg he]
        exact ih

theorem mem_keys_filterKeys (names : List String) (vm : VMap) (n : String) :
    n ∈ keys (filterKeys names vm) ↔ n ∈ keys vm ∧ n ∈ names := by
  induction vm with
  | nil => simp [filterKeys, keys]
  | cons kv rest ih =>
      obtain ⟨k₀, b₀⟩ := kv
      simp only [filterKeys, List.filter_cons] at ih ⊢
      by_cases hk₀ : k₀ ∈ names
      · rw [if_pos (by simpa using hk₀)]
        simp only [keys, List.map_cons, List.mem_cons] at ih ⊢
        constructor
        · rintro (h | h)
          · exact ⟨Or.inl h, h ▸ hk₀⟩
          · exact ⟨Or.inr (ih.mp h).1, (ih.mp h).2⟩
        · rintro ⟨h₁ | h₁, h₂⟩
          · exact Or.inl h₁
          · exact Or.inr (ih.mpr ⟨h₁, h₂⟩)
      · rw [if_neg (by simpa using hk₀)]
        simp only [keys, List.map_cons, List.mem_cons] at ih ⊢
        constructor
        · intro h
          exact ⟨Or.inr (ih.mp h).1, (ih.mp h).2⟩
        · rintro ⟨h₁ | h₁, h₂⟩
          · exact absurd (h₁ ▸ h₂) hk₀
          · exact ih.mpr ⟨h₁, h₂⟩

end VMap

namespace Tracking

theorem alignedFlag_nil (radius : Int) (pos : Pt) :
    alignedFlag radius [] pos = false := rfl

theorem markAligned_nil_hands (radius : Int) (ts : List NamedPt) (vm : VMap) :
    markAligned radius [] ts vm = vm := by
  induction ts generalizing vm with
  | nil => rfl
  | cons t ts ih => simp [markAligned, alignedFlag_nil, ih]

theorem lookup_addMissing_of_isSome (ns : List String) (vm : VMap) (n : String)
    (h : (VMap.lookup vm n).isSome = true) :
    VMap.lookup (addMissing ns vm) n = VMap.lookup vm n := by
  induction ns generalizing vm with
  | nil => rfl
  | cons m ms ih =>
      by_cases hm : (VMap.lookup vm m).isSome = true
      · simp only [addMissing, if_pos hm]
        exact ih vm h
      · simp only [addMissing, if_neg hm]
        have happ : VMap.lookup (vm ++ [(m, false)]) n = VMap.lookup vm n :=
          VMap.lookup_append_of_isSome vm [(m, false)] n h
        rw [ih (vm ++ [(m, false)]) (by rw [happ]; exact h), happ]

theorem mem_keys_addMissing (ns : List String) (vm : VMap) (n : String) :
    n ∈ VMap.keys (addMissing ns vm) ↔ n ∈ VMap.keys vm ∨ n ∈ ns := by
  induction ns generalizing vm with
  | nil => simp [addMissing]
  | cons m ms ih =>
      by_cases hm : (VMap.lookup vm m).isSome = true
      · simp only [addMissing, if_pos hm]
        rw [ih vm]
        have hmem : m ∈ VMap.keys vm := (VMap.lookup_isSome_iff vm m).mp hm
        simp only [List.mem_cons]
        constructor
        · rintro (h | h)
          · exact Or.inl h
          · exact Or.inr (Or.inr h)
        · rintro (h | h | h)
          · exact Or.inl h
          · exact Or.inl (h ▸ hmem)
          · exact Or.inr h
      · simp only [addMissing, if_neg hm]
        rw [ih (vm ++ [(m, false)])]
        have : VMap.keys (vm ++ [(m, false)]) = VMap.keys vm ++ [m] := by
          simp [VMap.keys]
        rw [this]
        simp only [List.mem_append, List.mem_singleton, List.mem_cons]
        tauto

theorem entry_addMissing (ns : List String) (vm : VMap) (kv : String × Bool)
    (h : kv ∈ addMissing ns vm) : kv ∈ vm ∨ kv.2 = false := by
  induction ns generalizing vm with
  | nil => exact Or.inl h
  | cons m ms ih =>
      by_cases hm : (VMap.lookup vm m).isSome = true
      · simp only [addMissing, if_pos hm] at h
        exact ih vm h
      · simp only [addMissing, if_neg hm] at h
        rcases ih (vm ++ [(m, false)]) h with h₁ | h₁
        · rcases List.mem_append.mp h₁ with h₂ | h₂
          · exact Or.inl h₂
          · right
            have : kv = (m, false) := List.mem_singleton.mp h₂
            rw [this]
        · exact Or.inr h₁

theorem lookup_markAligned_of_true (radius : Int) (hands : List Pt)
    (ts : List NamedPt) (vm : VMap) (n : String)
    (h : VMap.lookup vm n = some true) :
    VMap.lookup (markAligned radius hands ts vm) n = some true := by
  induction ts generalizing vm with
  | nil => exact h
  | cons t ts ih =>
      simp only [markAligned]
      by_cases ha : alignedFlag radius hands t.2 = true
      · rw [if_pos ha]
        by_cases he : t.1 = n
        · exact ih _ (he ▸ VMap.lookup_setKey_self vm t.1 true)
        · exact ih _ (by rw [VMap.lookup_setKey_ne vm t.1 n true (fun hh => he hh.symm)]; exact h)
      · rw [if_neg ha]
        exact ih vm h

theorem keys_markAligned (radius : Int) (hands : List Pt)
    (ts : List NamedPt) (vm : VMap)
    (h : ∀ t ∈ ts, t.1 ∈ VMap.keys vm) :
    VMap.keys (markAligned radius hands ts vm) = VMap.keys vm := by
  induction ts generalizing vm with
  | nil => rfl
  | cons t ts ih =>
      simp only [markAligned]
      by_cases ha : alignedFlag radius hands t.2 = true
      · rw [if_pos ha]
        have hkeys : VMap.keys (VMap.setKey vm t.1 true) = VMap.keys vm :=
          VMap.keys_setKey_of_mem vm t.1 true (h t (List.mem_cons_self t ts))
        rw [ih (VMap.setKey vm t.1 true)
          (fun u hu => hkeys ▸ h u (List.mem_cons_of_mem t hu)), hkeys]
      · rw [if_neg ha]
        exact ih vm fun u hu => h u (List.mem_cons_of_mem t hu)

theorem mem_keys_resyncVisited (names : List String) (vm : VMap) (n : String) :
    n ∈ VMap.keys (resyncVisited names vm) ↔ n ∈ names := by
  unfold resyncVisited
  rw [mem_keys_addMissing, VMap.mem_keys_filterKeys]
  constructor
  · rintro (⟨_, h⟩ | h)
    · exact h
    · exact h
  · intro h
    exact Or.inr h

theorem lookup_resyncVisited_of_true (names : List String) (vm : VMap)
    (n : String) (hn : n ∈ names) (h : VMap.lookup vm n = some true) :
    VMap.lookup (resyncVisited names vm) n = some true := by
  unfold resyncVisited
  have hf : VMap.lookup (VMap.filterKeys names vm) n = some true := by
    rw [VMap.lookup_filterKeys_of_mem names vm n hn]; exact h
  rw [lookup_addMissing_of_isSome names _ n (by rw [hf]; rfl), hf]

theorem mem_keys_processTargets (radius : Int) (targets : List NamedPt)
    (hands : List Pt) (vm : VMap) (n : String) :
    n ∈ VMap.keys (processTargets radius targets hands vm) ↔
      n ∈ targets.map Prod.fst := by
  unfold processTargets
  rw [keys_markAligned radius hands targets _ (fun t ht =>
    (mem_keys_resyncVisited (targets.map Prod.fst) vm t.1).mpr
      (List.mem_map.mpr ⟨t, ht, rfl⟩))]
  exact mem_keys_resyncVisited (targets.map Prod.fst) vm n

theorem lookup_processTargets_of_true (radius : Int) (targets : List NamedPt)
    (hands : List Pt) (vm : VMap) (n : String)
    (hn : n ∈ targets.map Prod.fst) (h : VMap.lookup vm n = some true) :
    VMap.lookup (processTargets radius targets hands vm) n = some true :=
  lookup_markAligned_of_true radius hands targets _ n
    (lookup_resyncVisited_of_true (targets.map Prod.fst) vm n hn h)

theorem entry_processTargets_nil_hands_nil_vm (radius : Int)
    (targets : List NamedPt) (kv : String × Bool)
    (h : kv ∈ processTargets radius targets [] []) : kv.2 = false := by
  unfold processTargets at h
  rw [markAligned_nil_hands] at h
  unfold resyncVisited at h
  rcases entry_addMissing (targets.map Prod.fst) (VMap.filterKeys (targets.map Prod.fst) []) kv h with h₁ | h₁
  · simp [VMap.filterKeys] at h₁
  · exact h₁

end Tracking

namespace TrackerServer

theorem cardiac_names_eq (a : Anchors) :
    (compute_cardiac_points a).map Target.name = cardiacNames := rfl

theorem lung_names_eq (a : Anchors) :
    (compute_lung_points a).map Target.name = lungNames := rfl

theorem namedPts_fst (ts : List Target) :
    (namedPts ts).map Prod.fst = ts.map Target.name := by
  simp [namedPts]

theorem modeTargets_names (m : String) (a : Anchors) :
    (modeTargets m a).map Target.name = modeNames m := by
  unfold modeTargets modeNames
  by_cases h : m = "heart"
  · rw [if_pos h, if_pos h, cardiac_names_eq]
  · rw [if_neg h, if_neg h, lung_names_eq]

end TrackerServer

/-- C6: for every pose and mode, the anatomical mapper returns exactly the
fixed target count of the mode — 7 for Lung and 5 for Cardiac — with pairwise
distinct names.  This holds for all five mapper implementations across the
three variants. -/
theorem mapper_fixed_counts_and_unique_names (a : TrackerServer.Anchors) :
    ((TrackerServer.compute_cardiac_points a).length = 5 ∧
      ((TrackerServer.compute_cardiac_points a).map TrackerServer.Target.name).Nodup) ∧
    ((TrackerServer.compute_lung_points a).length = 7 ∧
      ((TrackerServer.compute_lung_points a).map TrackerServer.Target.name).Nodup) ∧
    ((HandLung.compute_cardiac_points a).length = 5 ∧
      ((HandLung.compute_cardiac_points a).map HandLung.Target.name).Nodup) ∧
    ((HandLung.compute_lung_points a).length = 7 ∧
      ((HandLung.compute_lung_points a).map HandLung.Target.name).Nodup) ∧
    ((HeartTracker.compute_cardiac_points a).length = 5 ∧
      ((HeartTracker.compute_cardiac_points a).map HeartTracker.Target.name).Nodup) := by
  refine ⟨⟨rfl, ?_⟩, ⟨rfl, ?_⟩, ⟨rfl, ?_⟩, ⟨rfl, ?_⟩, ⟨rfl, ?_⟩⟩
  · rw [TrackerServer.cardiac_names_eq]; decide
  · rw [TrackerServer.lung_names_eq]; decide
  · show (["Aortic", "Pulmonic", "Erb\x27s Pt", "Tricuspid", "Mitral"] : List String).Nodup
    decide
  · show (["R Apex", "L Apex", "R Upper", "L Upper", "R Middle", "R Lower", "L Lower"] : List String).Nodup
    decide
  · show (["Aortic", "Pulmonic", "Erb\x27s Pt", "Tricuspid", "Mitral"] : List String).Nodup
    decide

namespace Tracking

theorem distLtRadius_iff_sqrt (hp pos : Pt) :
    distLtRadius hp pos 48 = true ↔
      Real.sqrt (((hp.1 : ℝ) - (pos.1 : ℝ)) ^ 2 + ((hp.2 : ℝ) - (pos.2 : ℝ)) ^ 2) < 48 := by
  unfold distLtRadius
  rw [decide_eq_true_iff]
  rw [Real.sqrt_lt' (by norm_num : (0 : ℝ) < 48)]
  have cast_eq : ((hp.1 : ℝ) - (pos.1 : ℝ)) ^ 2 + ((hp.2 : ℝ) - (pos.2 : ℝ)) ^ 2 =
      (((hp.1 - pos.1) ^ 2 + (hp.2 - pos.2) ^ 2 : Int) : ℝ) := by
    push_cast
    ring
  rw [cast_eq]
  constructor
  · intro h
    exact_mod_cast h
  · intro h
    exact_mod_cast h

end Tracking

/-- C1: for every target and list of hand centres, the aligned flag of the
server alignment loop is true exactly when some hand centre lies at Euclidean
distance strictly below the alignment radius 48 from the target position;
in particular a hand at (500,500) aligns with a target at (520,500)
(distance 20), and a hand at (600,500) does not (distance 100). -/
theorem aligned_iff_within_radius :
    (∀ (t : TrackerServer.Target) (hands : List Pt),
        Tracking.alignedFlag TrackerServer.ALIGNMENT_RADIUS hands t.pos = true ↔
          ∃ hp ∈ hands,
            Real.sqrt (((hp.1 : ℝ) - (t.pos.1 : ℝ)) ^ 2 +
              ((hp.2 : ℝ) - (t.pos.2 : ℝ)) ^ 2) < 48) ∧
    Tracking.alignedFlag TrackerServer.ALIGNMENT_RADIUS [((500 : Int), (500 : Int))]
      ((520 : Int), (500 : Int)) = true ∧
    Tracking.alignedFlag TrackerServer.ALIGNMENT_RADIUS [((600 : Int), (500 : Int))]
      ((520 : Int), (500 : Int)) = false := by
  refine ⟨?_, by decide, by decide⟩
  intro t hands
  unfold Tracking.alignedFlag
  rw [List.any_eq_true]
  exact exists_congr fun hp =>
    and_congr_right fun _ => Tracking.distLtRadius_iff_sqrt hp t.pos

namespace TrackerServer

theorem applyPendingReset_mode (s : TrackerState) :
    (applyPendingReset s).mode = s.mode := by
  unfold applyPendingReset
  split <;> rfl

theorem applyPendingReset_of_false (s : TrackerState)
    (h : s.reset_requested = false) : applyPendingReset s = s := by
  simp [applyPendingReset, h]

theorem frameStep_mode (s : TrackerState) (d : Detection) :
    (frameStep s d).mode = s.mode := by
  cases d with
  | initializing => rfl
  | idle => exact applyPendingReset_mode s
  | pose a hands => exact applyPendingReset_mode s

theorem frameStep_reset_false (s : TrackerState) (d : Detection)
    (h : s.reset_requested = false) : (frameStep s d).reset_requested = false := by
  cases d with
  | initializing => exact h
  | idle => simp [frameStep, applyPendingReset, h]
  | pose a hands => simp [frameStep, applyPendingReset, h]

theorem frameStep_pose_visited (s : TrackerState) (a : Anchors) (hands : List Pt) :
    (frameStep s (Detection.pose a hands)).visited =
      Tracking.processTargets ALIGNMENT_RADIUS
        (namedPts (modeTargets s.mode a)) hands (applyPendingReset s).visited := by
  show Tracking.processTargets ALIGNMENT_RADIUS
      (namedPts (modeTargets (applyPendingReset s).mode a)) hands
      (applyPendingReset s).visited = _
  rw [applyPendingReset_mode]

theorem frameStep_preserves_true (s : TrackerState) (d : Detection) (n : String)
    (hr : s.reset_requested = false)
    (hn : n ∈ modeNames s.mode)
    (hv : VMap.lookup s.visited n = some true) :
    VMap.lookup (frameStep s d).visited n = some true := by
  cases d with
  | initializing => exact hv
  | idle => rw [show frameStep s Detection.idle = s from applyPendingReset_of_false s hr]; exact hv
  | pose a hands =>
      rw [frameStep_pose_visited, applyPendingReset_of_false s hr]
      apply Tracking.lookup_processTargets_of_true
      · rw [namedPts_fst, modeTargets_names]
        exact hn
      · exact hv

end TrackerServer

/-- C2: within a session (no reset request pending and none issued, no mode
switch), once a visited entry for a current-mode target name is true it stays
true across any further sequence of processed frames: the per-frame
processing never flips an entry from true back to false. -/
theorem visited_monotone (s : TrackerServer.TrackerState)
    (ds : List TrackerServer.Detection) (n : String)
    (hr : s.reset_requested = false)
    (hn : n ∈ TrackerServer.modeNames s.mode)
    (hv : VMap.lookup s.visited n = some true) :
    VMap.lookup (ds.foldl TrackerServer.frameStep s).visited n = some true := by
  induction ds generalizing s with
  | nil => exact hv
  | cons d ds ih =>
      rw [List.foldl_cons]
      exact ih (TrackerServer.frameStep s d)
        (TrackerServer.frameStep_reset_false s d hr)
        (by rw [TrackerServer.frameStep_mode]; exact hn)
        (TrackerServer.frameStep_preserves_true s d n hr hn hv)

/-- C2 witness: a concrete two-frame run preserving a true entry. -/
theorem visited_monotone_witness :
    VMap.lookup
      (([TrackerServer.Detection.idle,
          TrackerServer.Detection.pose
            (TrackerServer.Anchors.mk (400, 100) (240, 100) (400, 300) (240, 300))
            [((500 : Int), (500 : Int))]].foldl
          TrackerServer.frameStep
          { mode := "heart", visited := [("Aortic", true)],
            reset_requested := false }).visited)
      ("Aortic") = some true :=
  visited_monotone _ _ _ (by decide) (by decide) (by decide)

/-- C3 counterexample: requesting the currently active mode through the feed
mode selector leaves the visited record untouched — it is not cleared. -/
theorem setMode_same_mode_keeps_visited :
    (TrackerServer.feedSetMode
        { mode := "heart", visited := [("Aortic", true)], reset_requested := false }
        ("heart")).visited = [("Aortic", true)] ∧
    (TrackerServer.feedSetMode
        { mode := "heart", visited := [("Aortic", true)], reset_requested := false }
        ("heart")).visited ≠ ([] : VMap) := by
  refine ⟨rfl, by decide⟩

/-- C3 amended: the feed mode selector clears the visited record exactly when
the sanitised requested mode differs from the active mode; requesting the
active mode leaves it unchanged.  The standalone mode-toggle key always
switches to the other mode, so it always clears. -/
theorem setMode_clears_iff_mode_changes :
    (∀ (s : TrackerServer.TrackerState) (m : String),
        (TrackerServer.feedSetMode s m).mode = TrackerServer.sanitizeMode m ∧
        (TrackerServer.feedSetMode s m).visited =
          (if s.mode = TrackerServer.sanitizeMode m then s.visited else ([] : VMap))) ∧
    (∀ (mode : String) (vm : VMap),
        (HandLung.pressToggleMode mode vm).2 = ([] : VMap) ∧
        (HandLung.pressToggleMode mode vm).1 ≠ mode) := by
  constructor
  · intro s m
    by_cases h : s.mode = TrackerServer.sanitizeMode m
    · constructor
      · simp [TrackerServer.feedSetMode, h]
      · simp [TrackerServer.feedSetMode, h]
    · constructor
      · simp [TrackerServer.feedSetMode, h]
      · simp [TrackerServer.feedSetMode, h]
  · intro mode vm
    constructor
    · rfl
    · show HandLung.toggleMode mode ≠ mode
      unfold HandLung.toggleMode
      by_cases h : mode = "lung"
      · rw [if_pos h]
        intro hh
        rw [h] at hh
        exact absurd hh (by decide)
      · rw [if_neg h]
        intro hh
        exact h hh.symm

/-- C4: after a reset request, the pending clear is applied in one piece at
the top of the next iteration that has a detector result: that iteration
behaves exactly as if it had started from a cleared visited map, an idle next
frame ends with an empty visited map and a zero done count, and a pose frame
with no hands ends with every visited entry false. -/
theorem reset_law (s : TrackerServer.TrackerState) (d : TrackerServer.Detection)
    (hd : d ≠ TrackerServer.Detection.initializing) :
    (TrackerServer.frameStep (TrackerServer.reset_tracker s) d =
      TrackerServer.frameStep
        { s with visited := [], reset_requested := false } d) ∧
    (TrackerServer.frameStep (TrackerServer.reset_tracker s)
        TrackerServer.Detection.idle).visited = ([] : VMap) ∧
    (TrackerServer.tracker_status
        (TrackerServer.frameStep (TrackerServer.reset_tracker s)
          TrackerServer.Detection.idle)).done = 0 ∧
    (∀ (a : TrackerServer.Anchors) (kv : String × Bool),
        kv ∈ (TrackerServer.frameStep (TrackerServer.reset_tracker s)
            (TrackerServer.Detection.pose a [])).visited → kv.2 = false) := by
  have hclear : TrackerServer.applyPendingReset (TrackerServer.reset_tracker s) =
      { s with visited := [], reset_requested := false } := by
    simp [TrackerServer.applyPendingReset, TrackerServer.reset_tracker]
  have hidle : TrackerServer.frameStep (TrackerServer.reset_tracker s)
      TrackerServer.Detection.idle =
      { s with visited := [], reset_requested := false } := hclear
  refine ⟨?_, ?_, ?_, ?_⟩
  · cases d with
    | initializing => exact absurd rfl hd
    | idle =>
        rw [hidle]
        show _ = TrackerServer.applyPendingReset _
        rw [TrackerServer.applyPendingReset_of_false _ rfl]
    | pose a hands =>
        have hstep : ∀ (t : TrackerServer.TrackerState),
            TrackerServer.frameStep t (TrackerServer.Detection.pose a hands) =
              { TrackerServer.applyPendingReset t with
                visited := Tracking.processTargets TrackerServer.ALIGNMENT_RADIUS
                  (TrackerServer.namedPts
                    (TrackerServer.modeTargets
                      (TrackerServer.applyPendingReset t).mode a))
                  hands (TrackerServer.applyPendingReset t).visited } :=
          fun t => rfl
        rw [hstep, hstep, hclear,
          TrackerServer.applyPendingReset_of_false _ rfl]
  · rw [hidle]
  · rw [hidle]
    rfl
  · intro a kv hkv
    rw [TrackerServer.frameStep_pose_visited, hclear] at hkv
    exact Tracking.entry_processTargets_nil_hands_nil_vm
      TrackerServer.ALIGNMENT_RADIUS _ kv hkv

/-- C4 witness: the reset law at the initial state and an idle next frame. -/
theorem reset_law_witness :
    TrackerServer.frameStep (TrackerServer.reset_tracker TrackerServer.initialState)
        TrackerServer.Detection.idle =
      TrackerServer.frameStep
        { TrackerServer.initialState with visited := [], reset_requested := false }
        TrackerServer.Detection.idle :=
  (reset_law TrackerServer.initialState TrackerServer.Detection.idle (by decide)).1

/-- C5 counterexample: on a zero-shoulder-width (degenerate) pose the server
mapper still computes a full fresh 5-point cardiac target list from the
current frame; it neither skips target computation for that frame (the list
is nonempty) nor reuses the previous frame targets (the list differs from the
one computed for the preceding good pose, and the mapper reads only the
current frame). -/
theorem degenerate_pose_still_computes_targets :
    ((TrackerServer.Anchors.mk (320, 100) (320, 100) (320, 210) (320, 210)).rs.1 -
        (TrackerServer.Anchors.mk (320, 100) (320, 100) (320, 210) (320, 210)).ls.1 = 0) ∧
    TrackerServer.compute_cardiac_points
        (TrackerServer.Anchors.mk (320, 100) (320, 100) (320, 210) (320, 210)) ≠ [] ∧
    TrackerServer.compute_cardiac_points
        (TrackerServer.Anchors.mk (320, 100) (320, 100) (320, 210) (320, 210)) ≠
      TrackerServer.compute_cardiac_points
        (TrackerServer.Anchors.mk (400, 100) (240, 100) (400, 300) (240, 300)) := by
  refine ⟨rfl, by decide, by decide⟩

/-- C5 amended: on every pose with zero shoulder width the mapper still runs
and stays well defined: the horizontal offsets collapse to zero, so all 5
cardiac and all 7 lung targets sit exactly on the torso midline with integer
coordinates.  The computation never divides by the shoulder width, so no
division by zero or undefined coordinate can arise. -/
theorem degenerate_pose_collapses_to_midline (a : TrackerServer.Anchors)
    (h : a.rs.1 = a.ls.1) :
    (TrackerServer.compute_cardiac_points a).length = 5 ∧
    (∀ t ∈ TrackerServer.compute_cardiac_points a,
        t.pos.1 = pyFloorDiv (a.ls.1 + a.rs.1) 2) ∧
    (TrackerServer.compute_lung_points a).length = 7 ∧
    (∀ t ∈ TrackerServer.compute_lung_points a,
        t.pos.1 = pyFloorDiv (a.ls.1 + a.rs.1) 2) := by
  have hw : |a.rs.1 - a.ls.1| = 0 := by rw [h]; simp
  have hstb : mulFrac (|a.rs.1 - a.ls.1|) 11 100 = 0 := by rw [hw]; decide
  have hmcl : mulFrac (|a.rs.1 - a.ls.1|) 32 100 = 0 := by rw [hw]; decide
  refine ⟨rfl, ?_, rfl, ?_⟩
  · intro t ht
    simp only [TrackerServer.compute_cardiac_points, List.mem_cons,
      List.not_mem_nil, or_false] at ht
    rcases ht with rfl | rfl | rfl | rfl | rfl <;> simp [hstb, hmcl]
  · intro t ht
    simp only [TrackerServer.compute_lung_points, List.mem_cons,
      List.not_mem_nil, or_false] at ht
    rcases ht with rfl | rfl | rfl | rfl | rfl | rfl | rfl <;> simp [hmcl]

/-- C5 witness: the amended statement at a concrete degenerate pose. -/
theorem degenerate_pose_collapses_to_midline_witness :
    (TrackerServer.compute_cardiac_points
        (TrackerServer.Anchors.mk (320, 100) (320, 100) (320, 210) (320, 210))).length = 5 ∧
    (TrackerServer.compute_lung_points
        (TrackerServer.Anchors.mk (320, 100) (320, 100) (320, 210) (320, 210))).length = 7 :=
  ⟨(degenerate_pose_collapses_to_midline _ (by decide)).1,
   (degenerate_pose_collapses_to_midline _ (by decide)).2.2.1⟩

namespace HandLung

theorem hl_cardiac_names_eq (a : TrackerServer.Anchors) :
    (compute_cardiac_points a).map Target.name = TrackerServer.cardiacNames := rfl

theorem hl_lung_names_eq (a : TrackerServer.Anchors) :
    (compute_lung_points a).map Target.name = TrackerServer.lungNames := rfl

theorem hl_namedPts_fst (ts : List Target) :
    (namedPts ts).map Prod.fst = ts.map Target.name := by
  simp [namedPts]

theorem hl_modeTargets_names (m : String) (a : TrackerServer.Anchors) :
    (modeTargets m a).map Target.name = modeNames m := by
  unfold modeTargets modeNames
  by_cases h : m = "lung"
  · rw [if_pos h, if_pos h, hl_lung_names_eq]
  · rw [if_neg h, if_neg h, hl_cardiac_names_eq]

end HandLung

namespace HeartTracker

theorem ht_cardiac_names_eq (a : TrackerServer.Anchors) :
    (compute_cardiac_points a).map Target.name = TrackerServer.cardiacNames := rfl

theorem ht_namedPts_fst (ts : List Target) :
    (namedPts ts).map Prod.fst = ts.map Target.name := by
  simp [namedPts]

end HeartTracker

/-- C7: at the end of every frame on which targets are computed, the visited
key set is exactly the active-mode target-name set.  For the server and the
standalone lung/cardiac variant this holds for an arbitrary prior visited map
(stale keys are dropped, missing names are inserted); for the dedicated
cardiac variant, which only inserts, it holds whenever the prior key set is
within the cardiac name set — as every reachable map is, the map starting
empty and only ever receiving cardiac names. -/
theorem visited_keys_resync :
    (∀ (s : TrackerServer.TrackerState) (a : TrackerServer.Anchors)
        (hands : List Pt) (n : String),
        n ∈ VMap.keys
            (TrackerServer.frameStep s (TrackerServer.Detection.pose a hands)).visited ↔
          n ∈ TrackerServer.modeNames s.mode) ∧
    (∀ (mode : String) (a : TrackerServer.Anchors) (hands : List Pt)
        (vm : VMap) (n : String),
        n ∈ VMap.keys (HandLung.processFrameVisited mode a hands vm) ↔
          n ∈ HandLung.modeNames mode) ∧
    (∀ (a : TrackerServer.Anchors) (hands : List Pt) (vm : VMap),
        (∀ k ∈ VMap.keys vm, k ∈ TrackerServer.cardiacNames) →
        ∀ n : String,
          n ∈ VMap.keys (HeartTracker.processFrameVisited a hands vm) ↔
            n ∈ TrackerServer.cardiacNames) := by
  refine ⟨?_, ?_, ?_⟩
  · intro s a hands n
    rw [TrackerServer.frameStep_pose_visited,
      Tracking.mem_keys_processTargets, TrackerServer.namedPts_fst,
      TrackerServer.modeTargets_names]
  · intro mode a hands vm n
    unfold HandLung.processFrameVisited
    rw [Tracking.mem_keys_processTargets, HandLung.hl_namedPts_fst,
      HandLung.hl_modeTargets_names]
  · intro a hands vm hsub n
    unfold HeartTracker.processFrameVisited HeartTracker.ensureVisited
    have hnames : (HeartTracker.namedPts (HeartTracker.compute_cardiac_points a)).map
        Prod.fst = TrackerServer.cardiacNames := by
      rw [HeartTracker.ht_namedPts_fst, HeartTracker.ht_cardiac_names_eq]
    have hkeys : VMap.keys
        (Tracking.markAligned HeartTracker.ALIGNMENT_RADIUS hands
          (HeartTracker.namedPts (HeartTracker.compute_cardiac_points a))
          (Tracking.addMissing
            ((HeartTracker.compute_cardiac_points a).map HeartTracker.Target.name) vm)) =
        VMap.keys
          (Tracking.addMissing
            ((HeartTracker.compute_cardiac_points a).map HeartTracker.Target.name) vm) := by
      apply Tracking.keys_markAligned
      intro t ht
      rw [Tracking.mem_keys_addMissing]
      right
      rw [HeartTracker.ht_cardiac_names_eq, ← hnames]
      exact List.mem_map.mpr ⟨t, ht, rfl⟩
    rw [hkeys, Tracking.mem_keys_addMissing, HeartTracker.ht_cardiac_names_eq]
    constructor
    · rintro (hk | hk)
      · exact hsub n hk
      · exact hk
    · intro hk
      exact Or.inr hk

/-- C7 witness: the key-set law at concrete inputs, with the subset
hypothesis of the dedicated cardiac variant discharged on the empty map. -/
theorem visited_keys_resync_witness :
    (("Aortic" : String) ∈ VMap.keys
        (TrackerServer.frameStep TrackerServer.initialState
          (TrackerServer.Detection.pose
            (TrackerServer.Anchors.mk (400, 100) (240, 100) (400, 300) (240, 300))
            [])).visited ↔
      ("Aortic" : String) ∈ TrackerServer.modeNames TrackerServer.initialState.mode) ∧
    (("Aortic" : String) ∈ VMap.keys
        (HeartTracker.processFrameVisited
          (TrackerServer.Anchors.mk (400, 100) (240, 100) (400, 300) (240, 300))
          [] []) ↔
      ("Aortic" : String) ∈ TrackerServer.cardiacNames) :=
  ⟨visited_keys_resync.1 TrackerServer.initialState
      (TrackerServer.Anchors.mk (400, 100) (240, 100) (400, 300) (240, 300)) [] _,
   visited_keys_resync.2.2
      (TrackerServer.Anchors.mk (400, 100) (240, 100) (400, 300) (240, 300)) [] []
      (by intro k hk; simp [VMap.keys] at hk) _⟩

namespace TrackerServer

theorem tracker_status_total (s : TrackerState) :
    (tracker_status s).total = s.visited.length := by
  unfold tracker_status
  cases h : s.visited with
  | nil => simp [h]
  | cons kv rest => simp [h]

theorem tracker_status_empty (s : TrackerState) (h : s.visited = []) :
    tracker_status s =
      { mode := s.mode, visited := [], total := 0, done := 0, progress := 0,
        allDone := false } := by
  unfold tracker_status
  rw [h]
  simp [round1]

end TrackerServer

/-- C8: the status query reports an all-done flag equal to
`total > 0 and done == total` and a progress field equal to the done/total
ratio expressed as a percentage rounded to one decimal; in the concrete
scenario of 5 cardiac targets with exactly 2 visited it returns total 5,
done 2, progress 40.0 and all-done false. -/
theorem status_postcondition :
    (∀ s : TrackerServer.TrackerState,
        ((TrackerServer.tracker_status s).allDone = true ↔
          0 < (TrackerServer.tracker_status s).total ∧
            (TrackerServer.tracker_status s).done =
              (TrackerServer.tracker_status s).total) ∧
        (TrackerServer.tracker_status s).progress =
          TrackerServer.round1
            (if 0 < (TrackerServer.tracker_status s).total then
              ((TrackerServer.tracker_status s).done : ℚ) /
                ((TrackerServer.tracker_status s).total : ℚ) * 100
            else 0)) ∧
    TrackerServer.tracker_status
        { mode := "heart",
          visited := [("Aortic", true), ("Pulmonic", true), ("Erb\x27s Pt", false),
            ("Tricuspid", false), ("Mitral", false)],
          reset_requested := false } =
      { mode := "heart",
        visited := [("Aortic", true), ("Pulmonic", true), ("Erb\x27s Pt", false),
          ("Tricuspid", false), ("Mitral", false)],
        total := 5, done := 2, progress := 40, allDone := false } := by
  constructor
  · intro s
    constructor
    · simp [TrackerServer.tracker_status, Bool.and_eq_true, decide_eq_true_iff]
    · rfl
  · have hprog : TrackerServer.round1 ((2 : ℚ) / 5 * 100) = 40 := by
      norm_num [TrackerServer.round1, round_eq]
    simp [TrackerServer.tracker_status, hprog]

/-- C9 counterexample: an idle (no-pose) frame with a reset pending does
change the visited state — the pending clear is applied on that frame. -/
theorem idle_frame_with_pending_reset_changes_visited :
    (TrackerServer.frameStep
        { mode := "heart", visited := [("Aortic", true)], reset_requested := true }
        TrackerServer.Detection.idle).visited = ([] : VMap) ∧
    (TrackerServer.frameStep
        { mode := "heart", visited := [("Aortic", true)], reset_requested := true }
        TrackerServer.Detection.idle).visited ≠ [("Aortic", true)] := by
  refine ⟨rfl, by decide⟩

/-- C9 amended: every no-pose frame still publishes a frame with a prompt
overlay and runs no target or alignment computation; the visited state is
left unchanged by the frame unless a reset is pending, in which case exactly
the pending clear is applied at the top of the iteration. -/
theorem idle_frame_effect (s : TrackerServer.TrackerState) :
    TrackerServer.frameOverlay TrackerServer.Detection.idle =
      TrackerServer.Overlay.stepIntoFramePrompt ∧
    TrackerServer.frameOverlay TrackerServer.Detection.initializing =
      TrackerServer.Overlay.initializingPrompt ∧
    TrackerServer.frameStep s TrackerServer.Detection.idle =
      TrackerServer.applyPendingReset s ∧
    TrackerServer.frameStep s TrackerServer.Detection.initializing = s ∧
    (s.reset_requested = false →
      TrackerServer.frameStep s TrackerServer.Detection.idle = s) := by
  refine ⟨rfl, rfl, rfl, rfl, ?_⟩
  intro h
  exact TrackerServer.applyPendingReset_of_false s h

/-- C9 witness: with no reset pending, an idle frame leaves the state as is. -/
theorem idle_frame_effect_witness :
    TrackerServer.initialState.reset_requested = false ∧
    TrackerServer.frameStep TrackerServer.initialState
        TrackerServer.Detection.idle = TrackerServer.initialState :=
  ⟨rfl, (idle_frame_effect TrackerServer.initialState).2.2.2.2 rfl⟩

/-- C10: the total reported by the status query is the current size of the
visited map, not the fixed target count of the active mode: before any
pose frame has been processed (and right after an applied reset, before the
next pose frame) the query returns total 0, done 0, progress 0 and all-done
false, although the active cardiac mode has 5 targets. -/
theorem status_total_is_visited_size :
    (∀ s : TrackerServer.TrackerState,
        (TrackerServer.tracker_status s).total = s.visited.length) ∧
    TrackerServer.tracker_status TrackerServer.initialState =
      { mode := "heart", visited := [], total := 0, done := 0, progress := 0,
        allDone := false } ∧
    (TrackerServer.tracker_status TrackerServer.initialState).total ≠
      TrackerServer.cardiacNames.length ∧
    (∀ s : TrackerServer.TrackerState,
        TrackerServer.tracker_status
            (TrackerServer.frameStep (TrackerServer.reset_tracker s)
              TrackerServer.Detection.idle) =
          { mode := s.mode, visited := [], total := 0, done := 0, progress := 0,
            allDone := false }) := by
  refine ⟨TrackerServer.tracker_status_total, ?_, by decide, ?_⟩
  · exact TrackerServer.tracker_status_empty TrackerServer.initialState rfl
  · intro s
    have hidle : TrackerServer.frameStep (TrackerServer.reset_tracker s)
        TrackerServer.Detection.idle =
        { s with visited := [], reset_requested := false } := by
      simp [TrackerServer.frameStep, TrackerServer.applyPendingReset,
        TrackerServer.reset_tracker]
    rw [hidle]
    exact TrackerServer.tracker_status_empty _ rfl
